import Mathlib

/-!
Verification of the mastra telemetry abstraction layer.

Shallow embedding of the telemetry subsystem:
* `wrapMethod` / `traceMethod` / `traceClass` from
  `OtelTelemetryAdapter` (src/unnamed/part_001),
* the provider loader and telemetry cache from
  `packages/core/src/telemetry/loader.ts`,
* the `Telemetry` facade from
  `packages/core/src/telemetry/telemetry-wrapper.ts` together with the
  `__TELEMETRY_ACTIVE__` flag read by `hasActiveTelemetry`
  (`packages/core/src/telemetry/utility.ts`),
* `NoOpContext` from `packages/core/src/telemetry/no-op.ts`,
* the module-level `context` wrapper from
  `packages/core/src/telemetry/context-wrapper.ts`.

JavaScript values are modelled by a type parameter `α`, thrown errors and
rejection reasons by a type parameter `ε`.  Mutable state is passed
explicitly.  The external OpenTelemetry tracer is modelled minimally: its
`startActiveSpan(name, options, cb)` invokes the callback synchronously
with a fresh span and propagates the callback result, which is exactly
how `wrapMethod` uses it.
-/

-- ===========================================================================
-- Call model: how a JavaScript invocation of a function can behave.
-- `ret v`        : returns the non-thenable value `v` synchronously.
-- `thenable s`   : returns a thenable (promise-like) that later settles
--                  with `s` (fulfilled value or rejection reason).
-- `throw e`      : throws `e` synchronously.
-- ===========================================================================

inductive CallResult (α ε : Type) where
  | ret : α → CallResult α ε
  | thenable : Except ε α → CallResult α ε
  | throw : ε → CallResult α ε
deriving Repr

-- ===========================================================================
-- Span model: the mutation surface of the underlying OpenTelemetry span,
-- as used by `wrapMethod` (end / recordException / setStatus).
-- ===========================================================================

/-- `SpanStatusCode` enum of the interfaces module (UNSET = 0, OK = 1,
ERROR = 2). -/
inductive SpanStatusCode where
  | unset
  | ok
  | error
deriving DecidableEq, Repr

/-- `SpanKind` enum of the interfaces module. -/
inductive SpanKind where
  | internal
  | server
  | client
  | producer
  | consumer
deriving DecidableEq, Repr

/-- Observable state of one span: its name, the attributes it was started
with, how many times `end()` was called on it, its status, and the
exceptions recorded on it (in order). -/
structure SpanState (ε : Type) where
  name : String
  attributes : List (String × String)
  endCount : Nat
  status : SpanStatusCode
  exceptions : List ε
deriving DecidableEq, Repr

/-- A span as produced by the tracer's start operation: nothing ended,
status UNSET, no exceptions recorded. -/
def startSpan (spanName : String) (attributes : List (String × String)) :
    SpanState ε :=
  { name := spanName, attributes := attributes, endCount := 0,
    status := .unset, exceptions := [] }

/-- `span.end()`. -/
def SpanState.endSpan (s : SpanState ε) : SpanState ε :=
  { s with endCount := s.endCount + 1 }

/-- `span.recordException(error)`. -/
def SpanState.recordException (s : SpanState ε) (e : ε) : SpanState ε :=
  { s with exceptions := s.exceptions ++ [e] }

/-- `span.setStatus({ code })`. -/
def SpanState.setStatus (s : SpanState ε) (c : SpanStatusCode) : SpanState ε :=
  { s with status := c }

-- ===========================================================================
-- `wrapMethod` (OtelTelemetryAdapter, src/unnamed/part_001 lines 340-380)
-- ===========================================================================

/-- `TraceMethodOptions` of the interfaces module. -/
structure TraceMethodOptions where
  spanName : Option String := none
  attributes : List (String × String) := []
  kind : Option SpanKind := none

/-- Span name resolution of `wrapMethod`:
`const { spanName = method.name || 'anonymous' } = options || {}`.
A JavaScript anonymous function has `name === ''`, which is falsy. -/
def resolveSpanName (methodName : String) (options : Option TraceMethodOptions) :
    String :=
  match (options.getD {}).spanName with
  | some n => n
  | none => if methodName = "" then "anonymous" else methodName

/-- Shallow embedding of the wrapper returned by
`OtelTelemetryAdapter.wrapMethod(method, options)`, applied to `args`,
run until any thenable returned by the method has settled.

The external tracer's `startActiveSpan(spanName, spanOptions, cb)` invokes
`cb` synchronously with a fresh span and propagates its outcome.  Inside
the callback the source does:
* `method.apply(this, args)` inside `try`;
* if the result is a thenable, return `result.then(onFulfilled, onRejected)`
  where `onFulfilled` calls `span.end()` and passes the value through and
  `onRejected` calls `span.recordException(error)`,
  `span.setStatus({code: ERROR})`, `span.end()` and rethrows `error`;
* otherwise `span.end()` and return the result;
* on synchronous throw (`catch`): `span.recordException`,
  `span.setStatus({code: ERROR})`, `span.end()`, rethrow.

The first component is the behaviour the caller observes, the second the
final state of the span. -/
def wrapMethod (method : List α → CallResult α ε) (methodName : String)
    (options : Option TraceMethodOptions) (args : List α) :
    CallResult α ε × SpanState ε :=
  let opts := options.getD {}
  let span := startSpan (resolveSpanName methodName options) opts.attributes
  match method args with
  | .ret v =>
      -- not a thenable: span.end(); return result
      (.ret v, span.endSpan)
  | .thenable (.ok v) =>
      -- onFulfilled: span.end(); return value
      (.thenable (.ok v), span.endSpan)
  | .thenable (.error e) =>
      -- onRejected: recordException; setStatus ERROR; end; throw error
      (.thenable (.error e),
        ((span.recordException e).setStatus .error).endSpan)
  | .throw e =>
      -- catch: recordException; setStatus ERROR; end; throw error
      (.throw e, ((span.recordException e).setStatus .error).endSpan)

/-- State of the span at the moment the wrapper's synchronous invocation
returns, before any pending thenable has settled: in the thenable branch
the source only attaches the `then` continuations and does not touch the
span synchronously. -/
def wrapMethodSync (method : List α → CallResult α ε) (methodName : String)
    (options : Option TraceMethodOptions) (args : List α) :
    CallResult α ε × SpanState ε :=
  let opts := options.getD {}
  let span := startSpan (resolveSpanName methodName options) opts.attributes
  match method args with
  | .ret v => (.ret v, span.endSpan)
  | .thenable s => (.thenable s, span)
  | .throw e => (.throw e, ((span.recordException e).setStatus .error).endSpan)

/-- `OtelTelemetryAdapter.traceMethod` delegates to `wrapMethod`. -/
def traceMethod (method : List α → CallResult α ε) (methodName : String)
    (options : Option TraceMethodOptions) (args : List α) :
    CallResult α ε × SpanState ε :=
  wrapMethod method methodName options args

-- ===========================================================================
-- `traceClass` (OtelTelemetryAdapter, src/unnamed/part_001 lines 301-334)
-- ===========================================================================

/-- A JavaScript property: either a callable (whose invocation behaviour on
a given argument list is a `CallResult`) or a plain value. -/
inductive JSProp (α ε : Type) where
  | func : (List α → CallResult α ε) → JSProp α ε
  | val : α → JSProp α ε

/-- A JavaScript object as `getAllMethodNames` sees it: own properties plus
an optional prototype; the chain ends where `Object.prototype` would
start. -/
inductive JSObj (α ε : Type) where
  | mk : List (String × JSProp α ε) → Option (JSObj α ε) → JSObj α ε

/-- Property lookup `obj[name]` along the prototype chain. -/
def JSObj.lookupProp : JSObj α ε → String → Option (JSProp α ε)
  | .mk own proto, name =>
      match own.lookup name with
      | some p => some p
      | none =>
          match proto with
          | some pr => pr.lookupProp name
          | none => none

/-- Own property names of every object in the prototype chain, in chain
order (the `while (current && current !== Object.prototype)` walk of
`getAllMethodNames`). -/
def JSObj.ownNamesChain : JSObj α ε → List String
  | .mk own proto =>
      own.map Prod.fst ++
        (match proto with
         | some pr => pr.ownNamesChain
         | none => [])

/-- `OtelTelemetryAdapter.getAllMethodNames`: walk the prototype chain and
collect every own property name for which `typeof obj[name] === 'function'`
and `name !== 'constructor'`. -/
def getAllMethodNames (obj : JSObj α ε) : List String :=
  obj.ownNamesChain.filter fun name =>
    (match obj.lookupProp name with
     | some (.func _) => true
     | _ => false) && name ≠ "constructor"

/-- `TraceClassOptions` of the interfaces module.  The field
`spanNamePrefixOpt` records the source option that prefixes span names
(`spanNamePrefix`). -/
structure TraceClassOptions where
  spanNamePrefixOpt : String := ""
  attributes : List (String × String) := []
  excludeMethods : List String := []
  skipIfNoTelemetry : Option Bool := none

/-- What `traceClass` hands back: the identical instance (reference
equality with the argument) or a `Proxy` whose `get` trap is the given
property function. -/
inductive TraceClassResult (α ε : Type) where
  | sameInstance
  | proxy : (String → Option (JSProp α ε)) → TraceClassResult α ε

/-- The `get` trap of the proxy built by `traceClass`: read the property;
if it is a function whose name is in `methodNames` and not in
`excludeMethods`, replace it by its `wrapMethod` wrapper (the wrapper's
caller-observable behaviour is the first component of `wrapMethod`);
otherwise hand the property through. -/
def proxyGet (inst : JSObj α ε) (options : TraceClassOptions)
    (prop : String) : Option (JSProp α ε) :=
  let methodNames := getAllMethodNames inst
  match inst.lookupProp prop with
  | some (.func f) =>
      if methodNames.contains prop && !options.excludeMethods.contains prop then
        let spanName :=
          if options.spanNamePrefixOpt ≠ "" then
            options.spanNamePrefixOpt ++ "." ++ prop
          else prop
        some (.func fun args =>
          (wrapMethod f prop
            (some { spanName := some spanName,
                    attributes := options.attributes }) args).1)
      else some (.func f)
  | other => other

/-- `OtelTelemetryAdapter.traceClass(instance, options)`.

`activeSpan` models the ambient `trace.getActiveSpan()` check (whether a
span is currently active in the external OpenTelemetry context).  The
source reads `const { skipIfNoTelemetry = true } = options || {}` and
returns the instance unchanged when `skipIfNoTelemetry && !trace.getActiveSpan()`;
otherwise it returns a `Proxy` with the `get` trap of `proxyGet`. -/
def traceClass (activeSpan : Bool) (inst : JSObj α ε)
    (options : Option TraceClassOptions) : TraceClassResult α ε :=
  let skipIfNoTelemetry := ((options.getD {}).skipIfNoTelemetry).getD true
  if skipIfNoTelemetry && !activeSpan then
    .sameInstance
  else
    .proxy (proxyGet inst (options.getD {}))

-- ===========================================================================
-- Provider loader (packages/core/src/telemetry/loader.ts)
-- ===========================================================================

/-- The recognised fields of `OtelConfig` that the loader observes.  Every
field is optional in the source; absent fields are `none`. -/
structure OtelConfig where
  enabled : Option Bool := none
  serviceName : Option String := none
deriving DecidableEq, Repr

/-- Truthiness of `config?.enabled`: truthy exactly when a configuration is
present and its `enabled` field is present and `true`. -/
def configEnabled : Option OtelConfig → Bool
  | none => false
  | some c => c.enabled.getD false

/-- The provider implementations `loadTelemetryProvider` can settle on:
`NoOpTelemetryProvider` from the no-op module, or the `MastraTelemetry`
class dynamically imported from the optional `@mastra/telemetry`
package. -/
inductive ProviderKind where
  | noOpTelemetryProvider
  | mastraTelemetry
deriving DecidableEq, Repr

/-- Observable outcome of one `loadTelemetryProvider` run: which provider
the returned promise fulfilled with, whether the dynamic
`import('@mastra/telemetry')` was attempted at all, and the
`console.warn` message emitted (if any). -/
structure LoadOutcome where
  provider : ProviderKind
  importAttempted : Bool
  warned : Option String
deriving DecidableEq, Repr

/-- The literal warning printed when the optional dependency cannot be
resolved (the two concatenated string literals of loader.ts lines
30-31). -/
def telemetryWarnMessage : String :=
  "Telemetry enabled but @mastra/telemetry not installed. " ++
    "Install it with: npm install @mastra/telemetry"

/-- Shallow embedding of `loadTelemetryProvider(config)`.

`importResult` models the behaviour of the dynamic
`import('@mastra/telemetry')`: `.ok ()` if the module resolves, `.error e`
if resolution throws with reason `e`.  The outer `Except` is the returned
promise: `.ok` if it fulfills, `.error` if it rejects.  Control flow of
the source: if `!config?.enabled`, return a `NoOpTelemetryProvider`
without importing; otherwise `try` the import and return `MastraTelemetry`
on success; on `catch`, `console.warn(...)` and return a
`NoOpTelemetryProvider`. -/
def loadTelemetryProvider (config : Option OtelConfig)
    (importResult : Except String Unit) : Except String LoadOutcome :=
  if !configEnabled config then
    .ok { provider := .noOpTelemetryProvider, importAttempted := false,
          warned := none }
  else
    match importResult with
    | .ok _ =>
        .ok { provider := .mastraTelemetry, importAttempted := true,
              warned := none }
    | .error _ =>
        .ok { provider := .noOpTelemetryProvider, importAttempted := true,
              warned := some telemetryWarnMessage }

/-- `JSON.stringify` of the configuration argument, as used to build the
cache key (`JSON.stringify(undefined)` interpolates as "undefined";
absent object fields are omitted). -/
def jsonStringifyConfig : Option OtelConfig → String
  | none => "undefined"
  | some c =>
      let fields :=
        (match c.enabled with
         | some b => ["\"enabled\":" ++ (if b then "true" else "false")]
         | none => []) ++
        (match c.serviceName with
         | some s => ["\"serviceName\":\"" ++ s ++ "\""]
         | none => [])
      "\x7b" ++ String.intercalate "," fields ++ "\x7d"

/-- The cache key of `getTelemetry`: `` `${name}:${JSON.stringify(config)}` ``. -/
def cacheKey (name : String) (config : Option OtelConfig) : String :=
  name ++ ":" ++ jsonStringifyConfig config

/-- State of the loader module: the `telemetryCache` map from cache key to
the promise stored for it, and a count of `createTelemetry` invocations.
A stored promise is identified by the value of `createCount` at the moment
`createTelemetry` was invoked, so two calls observe the same
pending/settled entry exactly when they observe the same identifier. -/
structure TelemetryCacheState where
  telemetryCache : List (String × Nat) := []
  createCount : Nat := 0
deriving DecidableEq, Repr

/-- `getTelemetry(name, config)`: compute the cache key; if the key is not
in the cache, invoke `createTelemetry(name, config)` (a fresh load
attempt) and store its promise under the key; return the cached promise. -/
def getTelemetry (st : TelemetryCacheState) (name : String)
    (config : Option OtelConfig) : Nat × TelemetryCacheState :=
  let key := cacheKey name config
  match st.telemetryCache.lookup key with
  | some id => (id, st)
  | none =>
      (st.createCount,
       { telemetryCache := st.telemetryCache ++ [(key, st.createCount)],
         createCount := st.createCount + 1 })

/-- `clearTelemetryCache()`: `telemetryCache.clear()`. -/
def clearTelemetryCache (st : TelemetryCacheState) : TelemetryCacheState :=
  { st with telemetryCache := [] }

/-- `n` consecutive `getTelemetry` calls with the same arguments (the
single-threaded rendering of `n` concurrent callers: each caller runs the
synchronous body of `getTelemetry` to completion before the next).
Returns the promises the callers received and the final state. -/
def getTelemetryCalls (st : TelemetryCacheState) (name : String)
    (config : Option OtelConfig) : Nat → List Nat × TelemetryCacheState
  | 0 => ([], st)
  | n + 1 =>
      let call := getTelemetry st name config
      let rest := getTelemetryCalls call.2 name config n
      (call.1 :: rest.1, rest.2)

-- ===========================================================================
-- Telemetry facade (packages/core/src/telemetry/telemetry-wrapper.ts)
-- and the process-wide flag (packages/core/src/telemetry/utility.ts)
-- ===========================================================================

/-- Which `ITelemetry` implementation backs the facade: the `NoOpTelemetry`
instance it is created with, or the implementation produced by
`provider.init(config)` once the background load settles
(`NoOpTelemetry` again for `NoOpTelemetryProvider`, the real adapter for
`MastraTelemetry`). -/
inductive TelemetryImpl where
  | noOpTelemetry
  | realTelemetry
deriving DecidableEq, Repr

/-- `provider.init(config)` as observed through the backing
implementation it hands to the facade. -/
def ProviderKind.initImpl : ProviderKind → TelemetryImpl
  | .noOpTelemetryProvider => .noOpTelemetry
  | .mastraTelemetry => .realTelemetry

/-- Module and global state touched by telemetry-wrapper.ts: the statics
of `class Telemetry` (`_instance`, `_loadingPromise`), the module-level
`cachedProvider`, and `globalThis.__TELEMETRY_ACTIVE__`.

The facade instance is identified by an allocation counter so that
"`init` returns the same instance" is reference equality of identifiers.
`loadStartCount` counts how many times `loadAsync` was started. -/
structure FacadeState where
  instanceId : Option Nat := none
  instanceBacking : TelemetryImpl := .noOpTelemetry
  loadingStarted : Bool := false
  loadingPending : Bool := false
  pendingConfig : Option OtelConfig := none
  loadStartCount : Nat := 0
  allocCount : Nat := 0
  cachedProvider : Option ProviderKind := none
  telemetryActive : Bool := false
deriving DecidableEq, Repr

namespace Telemetry

/-- `Telemetry.init(config)`: if `_instance` exists return it; else create
the instance backed by a fresh `NoOpTelemetry`, and if `_loadingPromise`
does not exist, start `loadAsync(config)` in the background.  Returns the
instance (by identifier) and the new state. -/
def init (st : FacadeState) (config : Option OtelConfig) :
    Nat × FacadeState :=
  match st.instanceId with
  | some id => (id, st)
  | none =>
      let id := st.allocCount
      let st1 := { st with
        instanceId := some id,
        instanceBacking := .noOpTelemetry,
        allocCount := st.allocCount + 1 }
      if st1.loadingStarted then (id, st1)
      else
        (id, { st1 with
          loadingStarted := true,
          loadingPending := true,
          pendingConfig := config,
          loadStartCount := st1.loadStartCount + 1 })

/-- The pending `Telemetry.loadAsync(config)` settling, with
`importResult` the behaviour of the dynamic import inside
`loadTelemetryProvider`.  Source control flow (inside `try`):
if `cachedProvider` is unset, `cachedProvider = await
loadTelemetryProvider(config)`; `telemetry = cachedProvider.init(config)`;
if `_instance` exists, swap `_instance._telemetry` to `telemetry`; set
`globalThis.__TELEMETRY_ACTIVE__ = true`.  The `catch` branch only
`console.warn`s and leaves the state untouched. -/
def loadSettle (st : FacadeState) (importResult : Except String Unit) :
    FacadeState :=
  let loaded : Except String (ProviderKind × FacadeState) :=
    match st.cachedProvider with
    | some p => .ok (p, st)
    | none =>
        (loadTelemetryProvider st.pendingConfig importResult).map
          fun out => (out.provider, { st with cachedProvider := some out.provider })
  match loaded with
  | .error _ => { st with loadingPending := false }
  | .ok (provider, st1) =>
      let telemetry := provider.initImpl
      let st2 :=
        match st1.instanceId with
        | some _ => { st1 with instanceBacking := telemetry }
        | none => st1
      { st2 with telemetryActive := true, loadingPending := false }

/-- `Telemetry.get()`: throws when `_instance` is unset, otherwise returns
it; never changes any state. -/
def get (st : FacadeState) : Except String Nat :=
  match st.instanceId with
  | none => .error "Telemetry not initialized. Call Telemetry.init() first."
  | some id => .ok id

/-- `Telemetry.waitForInit()`: await `_loadingPromise` if it exists (the
pending load settles first); then, if `_instance` is still unset,
`_instance = this.init()` (no configuration argument); return
`_instance`. -/
def waitForInit (st : FacadeState) (importResult : Except String Unit) :
    Nat × FacadeState :=
  let st1 := if st.loadingPending then loadSettle st importResult else st
  match st1.instanceId with
  | some id => (id, st1)
  | none => init st1 none

end Telemetry

/-- `hasActiveTelemetry()` (utility.ts): `!!globalThis.__TELEMETRY_ACTIVE__`. -/
def hasActiveTelemetry (st : FacadeState) : Bool :=
  st.telemetryActive

/-- The operations of the facade module that run against `FacadeState`.
Every write to `__TELEMETRY_ACTIVE__` anywhere in the repository is the
single `= true` assignment inside `loadAsync`. -/
inductive FacadeOp where
  | opInit (config : Option OtelConfig)
  | opLoadSettle (importResult : Except String Unit)
  | opWaitForInit (importResult : Except String Unit)
  | opGet

/-- One step of the facade module. -/
def facadeStep (op : FacadeOp) (st : FacadeState) : FacadeState :=
  match op with
  | .opInit config => (Telemetry.init st config).2
  | .opLoadSettle importResult => Telemetry.loadSettle st importResult
  | .opWaitForInit importResult => (Telemetry.waitForInit st importResult).2
  | .opGet => st

-- ===========================================================================
-- `NoOpContext` (packages/core/src/telemetry/no-op.ts lines 79-102),
-- modelled with explicit object identity: a heap of `Map` objects, a
-- context being a reference (index) into the heap.  Symbols are `Nat`.
-- ===========================================================================

/-- The contents of one JavaScript `Map<symbol, unknown>`, in insertion
order. -/
abbrev SymMap (V : Type) := List (Nat × V)

/-- `Map.prototype.set`: an existing key keeps its position and gets the
new value; a new key is appended. -/
def mapSet (m : SymMap V) (k : Nat) (v : V) : SymMap V :=
  if (m.lookup k).isSome then
    m.map fun p => if p.1 = k then (k, v) else p
  else
    m ++ [(k, v)]

/-- `this.values.forEach((v, k) => dst.set(k, v))`: copy every entry of
`src` into `dst`, in insertion order. -/
def copyAll (src dst : SymMap V) : SymMap V :=
  src.foldl (fun acc p => mapSet acc p.1 p.2) dst

/-- `this.values.forEach((v, k) => { if (k !== key) dst.set(k, v) })`:
copy every entry except the deleted key. -/
def copyAllExcept (src : SymMap V) (key : Nat) (dst : SymMap V) : SymMap V :=
  src.foldl (fun acc p => if p.1 ≠ key then mapSet acc p.1 p.2 else acc) dst

/-- The heap of all `NoOpContext` objects created so far; a context is an
index into it.  A `new NoOpContext()` allocates a fresh empty map at the
end of the heap. -/
structure CtxHeap (V : Type) where
  heap : List (SymMap V)
deriving DecidableEq, Repr

namespace NoOpContext

/-- `ctx.getValue(key)`: `this.values.get(key)`. -/
def getValue (st : CtxHeap V) (c k : Nat) : Option V :=
  (st.heap.getD c []).lookup k

/-- `ctx.setValue(key, value)`: allocate `new NoOpContext()`, copy every
entry of `this.values` into it, set `key` to `value` in the copy, return
the new context. -/
def setValue (st : CtxHeap V) (c k : Nat) (v : V) : Nat × CtxHeap V :=
  let src := st.heap.getD c []
  let m := mapSet (copyAll src []) k v
  (st.heap.length, ⟨st.heap ++ [m]⟩)

/-- `ctx.deleteValue(key)`: allocate `new NoOpContext()`, copy every entry
of `this.values` except `key` into it, return the new context. -/
def deleteValue (st : CtxHeap V) (c k : Nat) : Nat × CtxHeap V :=
  let src := st.heap.getD c []
  let m := copyAllExcept src k []
  (st.heap.length, ⟨st.heap ++ [m]⟩)

/-- One derivation step: `setValue` or `deleteValue`. -/
inductive CtxOp (V : Type) where
  | set (k : Nat) (v : V)
  | del (k : Nat)

/-- Apply one derivation to a context, returning the derived context. -/
def applyOp (st : CtxHeap V) (c : Nat) : CtxOp V → Nat × CtxHeap V
  | .set k v => setValue st c k v
  | .del k => deleteValue st c k

/-- Apply a chain of derivations starting from `c`, each one derived from
the previous result. -/
def applyOps (st : CtxHeap V) (c : Nat) : List (CtxOp V) → Nat × CtxHeap V
  | [] => (c, st)
  | op :: ops =>
      let d := applyOp st c op
      applyOps d.2 d.1 ops

/-- Well-formedness of the heap: each map has pairwise distinct keys (an
invariant of every JavaScript `Map`). -/
def WF (st : CtxHeap V) : Prop :=
  ∀ m ∈ st.heap, (m.map Prod.fst).Nodup

end NoOpContext

-- ===========================================================================
-- Module-level `context` wrapper
-- (packages/core/src/telemetry/context-wrapper.ts lines 44-77)
-- ===========================================================================

/-- A callback run by `context.with`: it sees the module-level
`activeContext` as state (it may read it via `context.active()` and change
it, e.g. through nested `with` calls) and either returns a value or
throws. -/
abbrev CtxFn (C α ε : Type) := C → Except ε α × C

/-- `context.with(ctx, fn)`: save `prevContext = activeContext`, assign
`activeContext = ctx`, run `fn` inside `try`, and in `finally` restore
`activeContext = prevContext`.  Input state is the module-level
`activeContext` before the call; the result pairs the outcome `fn`
produced (value or thrown error) with the `activeContext` after the
call. -/
def contextWith (ctx : C) (fn : CtxFn C α ε) (activeContext : C) :
    Except ε α × C :=
  let prevContext := activeContext
  let running := ctx
  let (r, _afterFn) := fn running
  (r, prevContext)

/-- `context.withAsync(ctx, fn)`: identical control flow, observed once
the promise returned by `fn` has settled (`finally` runs after the
`await`). -/
def contextWithAsync (ctx : C) (fn : CtxFn C α ε) (activeContext : C) :
    Except ε α × C :=
  let prevContext := activeContext
  let running := ctx
  let (r, _afterFn) := fn running
  (r, prevContext)

-- ===========================================================================
-- Helper lemmas (shared)
-- ===========================================================================

/-- The wrapper built by `wrapMethod` hands the method's behaviour through
unchanged: same return value, same thrown error, same settlement of a
returned thenable. -/
theorem wrapMethod_fst (method : List α → CallResult α ε) (methodName : String)
    (options : Option TraceMethodOptions) (args : List α) :
    (wrapMethod method methodName options args).1 = method args := by
  unfold wrapMethod
  cases h : method args with
  | ret v => simp [h]
  | thenable s => cases s <;> simp [h]
  | throw e => simp [h]

theorem lookup_append {κ ν : Type} [BEq κ] (l1 l2 : List (κ × ν)) (k : κ) :
    (l1 ++ l2).lookup k = (l1.lookup k).or (l2.lookup k) := by
  induction l1 with
  | nil => simp
  | cons p t ih =>
      obtain ⟨a, b⟩ := p
      cases h : k == a <;> simp [List.lookup_cons, h, ih]

-- ===========================================================================
-- C1 / C2 : traceMethod
-- ===========================================================================

/-- C1: for every function and every invocation of the wrapper returned by
`traceMethod` in which the function fails — a synchronous throw, or a
returned thenable that later rejects — the exception is recorded on the
started span, the span status is set to error, the span is ended exactly
once, and the original error / original rejection reason is propagated
unchanged to the caller; in the thenable case nothing happens to the span
during the wrapper's synchronous extent (the end is deferred until the
thenable settles). -/
theorem traceMethod_failure_records_and_propagates
    {α ε : Type} (method : List α → CallResult α ε) (methodName : String)
    (options : Option TraceMethodOptions) (args : List α) (e : ε)
    (hfail : method args = .throw e ∨ method args = .thenable (.error e)) :
    (traceMethod method methodName options args).1 = method args ∧
    (traceMethod method methodName options args).2.endCount = 1 ∧
    (traceMethod method methodName options args).2.status = .error ∧
    (traceMethod method methodName options args).2.exceptions = [e] ∧
    (method args = .thenable (.error e) →
      (wrapMethodSync method methodName options args).2.endCount = 0) := by
  rcases hfail with h | h <;>
    simp [traceMethod, wrapMethod, wrapMethodSync, h, startSpan,
      SpanState.endSpan, SpanState.recordException, SpanState.setStatus]

/-- Witness for C1 at a concrete failing call: the wrapper around a method
that throws `"boom"` rethrows `"boom"`, with the span ended once, status
error, and the exception recorded. -/
theorem traceMethod_failure_witness :
    ((fun _ : List Nat => CallResult.throw (α := Nat) "boom") [] =
        CallResult.throw "boom" ∨
      (fun _ : List Nat => CallResult.throw (α := Nat) "boom") [] =
        CallResult.thenable (.error "boom")) ∧
    (traceMethod (fun _ : List Nat => CallResult.throw (α := Nat) "boom")
        "" none []).1 = CallResult.throw "boom" ∧
    (traceMethod (fun _ : List Nat => CallResult.throw (α := Nat) "boom")
        "" none []).2.endCount = 1 ∧
    (traceMethod (fun _ : List Nat => CallResult.throw (α := Nat) "boom")
        "" none []).2.status = .error ∧
    (traceMethod (fun _ : List Nat => CallResult.throw (α := Nat) "boom")
        "" none []).2.exceptions = ["boom"] := by
  have h := traceMethod_failure_records_and_propagates
    (fun _ : List Nat => CallResult.throw (α := Nat) "boom") "" none []
    "boom" (Or.inl rfl)
  exact ⟨Or.inl rfl, h.1, h.2.1, h.2.2.1, h.2.2.2.1⟩

/-- C2: for every function, calling the wrapper returned by `traceMethod`
when the function returns normally (synchronously or via a thenable that
fulfills) yields the result passed through unchanged, with the span ended
exactly once, its status left unset, and no exception recorded. -/
theorem traceMethod_success_passes_through
    {α ε : Type} (method : List α → CallResult α ε) (methodName : String)
    (options : Option TraceMethodOptions) (args : List α) (v : α)
    (hret : method args = .ret v ∨ method args = .thenable (.ok v)) :
    (traceMethod method methodName options args).1 = method args ∧
    (traceMethod method methodName options args).2.endCount = 1 ∧
    (traceMethod method methodName options args).2.status = .unset ∧
    (traceMethod method methodName options args).2.exceptions = [] := by
  rcases hret with h | h <;>
    simp [traceMethod, wrapMethod, h, startSpan, SpanState.endSpan]

/-- Witness for C2 at the spec's example: wrapping `(a, b) => a + b` and
calling with `(2, 3)` returns `5` with the span ended exactly once and
status unset. -/
theorem traceMethod_success_witness :
    ((fun args : List Nat =>
        CallResult.ret (ε := String) (args.getD 0 0 + args.getD 1 0)) [2, 3] =
      CallResult.ret 5) ∧
    (traceMethod
        (fun args : List Nat =>
          CallResult.ret (ε := String) (args.getD 0 0 + args.getD 1 0))
        "" none [2, 3]).1 = CallResult.ret 5 ∧
    (traceMethod
        (fun args : List Nat =>
          CallResult.ret (ε := String) (args.getD 0 0 + args.getD 1 0))
        "" none [2, 3]).2.endCount = 1 ∧
    (traceMethod
        (fun args : List Nat =>
          CallResult.ret (ε := String) (args.getD 0 0 + args.getD 1 0))
        "" none [2, 3]).2.status = .unset := by
  have h := traceMethod_success_passes_through
    (fun args : List Nat =>
      CallResult.ret (ε := String) (args.getD 0 0 + args.getD 1 0))
    "" none [2, 3] 5 (Or.inl rfl)
  exact ⟨rfl, h.1.trans rfl, h.2.1, h.2.2.1⟩


-- ===========================================================================
-- C3 : getTelemetry cache
-- ===========================================================================

/-- A call whose cache key is already present returns the cached promise
and changes nothing. -/
theorem getTelemetry_cached (st : TelemetryCacheState) (name : String)
    (config : Option OtelConfig) (id : Nat)
    (h : st.telemetryCache.lookup (cacheKey name config) = some id) :
    getTelemetry st name config = (id, st) := by
  simp [getTelemetry, h]

/-- Repeated calls against a present cache key all return the cached
promise and never change the state. -/
theorem getTelemetryCalls_cached (st : TelemetryCacheState) (name : String)
    (config : Option OtelConfig) (id : Nat) (n : Nat)
    (h : st.telemetryCache.lookup (cacheKey name config) = some id) :
    getTelemetryCalls st name config n = (List.replicate n id, st) := by
  induction n with
  | zero => rfl
  | succ m ih =>
      simp [getTelemetryCalls, getTelemetry_cached st name config id h, ih,
        List.replicate_succ]

/-- C3: any number of consecutive (single-threaded rendering of
concurrent) `getTelemetry` calls with the same name+configuration key
cause exactly one `createTelemetry` invocation and all callers receive
the same entry; once an entry is cached for a key it is returned
unchanged by every later call with that key; and after
`clearTelemetryCache` the next call performs a new load attempt. -/
theorem getTelemetry_dedup_and_cache :
    (∀ (st : TelemetryCacheState) (name : String) (config : Option OtelConfig)
        (n : Nat),
      st.telemetryCache.lookup (cacheKey name config) = none → 1 ≤ n →
      (getTelemetryCalls st name config n).2.createCount = st.createCount + 1 ∧
      ∀ i ∈ (getTelemetryCalls st name config n).1, i = st.createCount)
  ∧ (∀ (st : TelemetryCacheState) (name : String) (config : Option OtelConfig)
        (id : Nat),
      st.telemetryCache.lookup (cacheKey name config) = some id →
      getTelemetry st name config = (id, st))
  ∧ (∀ (st : TelemetryCacheState) (name : String) (config : Option OtelConfig),
      (getTelemetry (clearTelemetryCache st) name config).2.createCount
        = st.createCount + 1) := by
  refine ⟨?_, getTelemetry_cached, ?_⟩
  · intro st name config n hnone hn
    obtain ⟨m, rfl⟩ : ∃ m, n = m + 1 := ⟨n - 1, (Nat.succ_pred_eq_of_pos hn).symm⟩
    have hstep : getTelemetry st name config =
        (st.createCount,
         { telemetryCache :=
             st.telemetryCache ++ [(cacheKey name config, st.createCount)],
           createCount := st.createCount + 1 }) := by
      simp [getTelemetry, hnone]
    have hcached :
        List.lookup (cacheKey name config)
          (st.telemetryCache ++ [(cacheKey name config, st.createCount)])
          = some st.createCount := by
      rw [lookup_append, hnone]
      simp
    have hrest := getTelemetryCalls_cached
      { telemetryCache :=
          st.telemetryCache ++ [(cacheKey name config, st.createCount)],
        createCount := st.createCount + 1 }
      name config st.createCount m hcached
    constructor
    · simp only [getTelemetryCalls, hstep, hrest]
    · intro i hi
      simp only [getTelemetryCalls, hstep, hrest, List.mem_cons,
        List.mem_replicate] at hi
      rcases hi with h | ⟨_, h⟩ <;> exact h
  · intro st name config
    simp [getTelemetry, clearTelemetryCache]

/-- Witness for C3: from an empty cache, two calls with the key
`"svc" + no configuration` perform exactly one load attempt and both
receive entry 0; after clearing, a further call performs a new attempt. -/
theorem getTelemetry_dedup_witness :
    (TelemetryCacheState.telemetryCache {} ).lookup (cacheKey "svc" none)
        = none ∧
    (getTelemetryCalls {} "svc" none 2).2.createCount = 0 + 1 ∧
    (∀ i ∈ (getTelemetryCalls {} "svc" none 2).1, i = 0) ∧
    (getTelemetry
        (clearTelemetryCache (getTelemetryCalls {} "svc" none 2).2)
        "svc" none).2.createCount
      = (getTelemetryCalls {} "svc" none 2).2.createCount + 1 := by
  have h1 := getTelemetry_dedup_and_cache.1 {} "svc" none 2 rfl (by decide)
  have h3 := getTelemetry_dedup_and_cache.2.2
    (getTelemetryCalls {} "svc" none 2).2 "svc" none
  exact ⟨rfl, h1.1, h1.2, h3⟩

-- ===========================================================================
-- C4 / C5 : loadTelemetryProvider
-- ===========================================================================

/-- C4: for every configuration in which `enabled` is falsy or absent
(including no configuration at all), `loadTelemetryProvider` fulfills with
a no-op provider, without attempting to resolve the optional
`@mastra/telemetry` dependency and without warning — whatever the import
would have done. -/
theorem loadTelemetryProvider_disabled_never_imports
    (config : Option OtelConfig) (importResult : Except String Unit)
    (h : configEnabled config = false) :
    loadTelemetryProvider config importResult =
      .ok { provider := .noOpTelemetryProvider, importAttempted := false,
            warned := none } := by
  simp [loadTelemetryProvider, h]

/-- Witness for C4 at the two concrete disabled shapes: no configuration
at all, and a configuration with `enabled: false`. -/
theorem loadTelemetryProvider_disabled_witness :
    configEnabled none = false ∧
    configEnabled (some { enabled := some false }) = false ∧
    loadTelemetryProvider none (.error "resolution hook called") =
      .ok { provider := .noOpTelemetryProvider, importAttempted := false,
            warned := none } ∧
    loadTelemetryProvider (some { enabled := some false }) (.ok ()) =
      .ok { provider := .noOpTelemetryProvider, importAttempted := false,
            warned := none } :=
  ⟨rfl, rfl,
    loadTelemetryProvider_disabled_never_imports none
      (.error "resolution hook called") rfl,
    loadTelemetryProvider_disabled_never_imports
      (some { enabled := some false }) (.ok ()) rfl⟩

/-- C5: if the dynamic resolution of the optional dependency throws,
`loadTelemetryProvider` fulfills (never rejects) with a no-op provider and
emits the warning naming the missing `@mastra/telemetry` dependency and
the `npm install @mastra/telemetry` command; moreover the returned promise
fulfills for every configuration and every import behaviour. -/
theorem loadTelemetryProvider_import_failure_fallback
    (config : Option OtelConfig) (e : String)
    (h : configEnabled config = true) :
    loadTelemetryProvider config (.error e) =
      .ok { provider := .noOpTelemetryProvider, importAttempted := true,
            warned := some telemetryWarnMessage } ∧
    telemetryWarnMessage =
      "Telemetry enabled but " ++ "@mastra/telemetry" ++
        " not installed. Install it with: " ++
        "npm install @mastra/telemetry" ∧
    ∀ (cfg : Option OtelConfig) (importResult : Except String Unit),
      ∃ out, loadTelemetryProvider cfg importResult = .ok out := by
  refine ⟨by simp [loadTelemetryProvider, h], by rfl, ?_⟩
  intro cfg importResult
  unfold loadTelemetryProvider
  cases configEnabled cfg <;> cases importResult <;> simp

/-- Witness for C5: a configuration with `enabled: true` and an import
that throws `"Cannot find module"`. -/
theorem loadTelemetryProvider_import_failure_witness :
    configEnabled (some { enabled := some true }) = true ∧
    loadTelemetryProvider (some { enabled := some true })
        (.error "Cannot find module") =
      .ok { provider := .noOpTelemetryProvider, importAttempted := true,
            warned := some telemetryWarnMessage } :=
  ⟨rfl,
    (loadTelemetryProvider_import_failure_fallback
      (some { enabled := some true }) "Cannot find module" rfl).1⟩

-- ===========================================================================
-- C6 : the __TELEMETRY_ACTIVE__ flag
-- ===========================================================================

/-- `Telemetry.init` never touches the global flag. -/
theorem init_telemetryActive (st : FacadeState) (config : Option OtelConfig) :
    (Telemetry.init st config).2.telemetryActive = st.telemetryActive := by
  unfold Telemetry.init
  cases st.instanceId <;> simp <;> split <;> rfl

/-- `loadTelemetryProvider` always fulfills, so the `catch` branch of
`loadAsync` is unreachable and every settling of the background load ends
with the assignment `__TELEMETRY_ACTIVE__ = true` — whichever provider it
settled on. -/
theorem loadSettle_telemetryActive (st : FacadeState)
    (importResult : Except String Unit) :
    (Telemetry.loadSettle st importResult).telemetryActive = true := by
  rcases hcp : st.cachedProvider with _ | p <;>
    rcases hen : configEnabled st.pendingConfig <;>
      rcases importResult with e | u <;>
        rcases hin : st.instanceId with _ | id <;>
          simp [Telemetry.loadSettle, loadTelemetryProvider, Except.map,
            hcp, hen, hin]

/-- `Telemetry.loadSettle` never changes the facade instance identity. -/
theorem loadSettle_instanceId (st : FacadeState)
    (importResult : Except String Unit) :
    (Telemetry.loadSettle st importResult).instanceId = st.instanceId := by
  rcases hcp : st.cachedProvider with _ | p <;>
    rcases hen : configEnabled st.pendingConfig <;>
      rcases importResult with e | u <;>
        rcases hin : st.instanceId with _ | id <;>
          simp [Telemetry.loadSettle, loadTelemetryProvider, Except.map,
            hcp, hen, hin]

/-- C6 counterexample: starting from a fresh process, `Telemetry.init`
with no configuration (tracing disabled) followed by the background load
settling leaves the facade backed by the no-op implementation — and the
flag read by `hasActiveTelemetry` is nevertheless raised.  The claim says
a background load that settles on the no-op implementation does not raise
the flag; the code raises it on every successful load. -/
theorem telemetryActive_raised_by_noop_load :
    (Telemetry.loadSettle (Telemetry.init {} none).2
        (.error "not installed")).instanceBacking =
      TelemetryImpl.noOpTelemetry ∧
    (Telemetry.loadSettle (Telemetry.init {} none).2
        (.error "not installed")).cachedProvider =
      some ProviderKind.noOpTelemetryProvider ∧
    hasActiveTelemetry
      (Telemetry.loadSettle (Telemetry.init {} none).2
        (.error "not installed")) = true := by
  refine ⟨rfl, rfl, rfl⟩

/-- C6 as amended: the flag read via `hasActiveTelemetry` /
`__TELEMETRY_ACTIVE__` is raised by every settling of the background
load — including one that settles on the no-op implementation (disabled
configuration or missing dependency); `init` alone never raises it; and
no facade operation ever unsets it for the remaining life of the
process. -/
theorem telemetryActive_flag_lifecycle :
    (∀ (st : FacadeState) (importResult : Except String Unit),
        hasActiveTelemetry (Telemetry.loadSettle st importResult) = true)
  ∧ (∀ (st : FacadeState) (config : Option OtelConfig),
        hasActiveTelemetry (Telemetry.init st config).2
          = hasActiveTelemetry st)
  ∧ (∀ (op : FacadeOp) (st : FacadeState),
        hasActiveTelemetry st = true →
        hasActiveTelemetry (facadeStep op st) = true) := by
  refine ⟨fun st ir => loadSettle_telemetryActive st ir,
    fun st config => init_telemetryActive st config, ?_⟩
  intro op st h
  cases op with
  | opInit config =>
      simpa [facadeStep, hasActiveTelemetry, init_telemetryActive] using h
  | opLoadSettle ir =>
      simpa [facadeStep, hasActiveTelemetry] using
        loadSettle_telemetryActive st ir
  | opWaitForInit ir =>
      show (Telemetry.waitForInit st ir).2.telemetryActive = true
      unfold Telemetry.waitForInit
      by_cases hp : st.loadingPending
      · rw [if_pos hp]
        rcases hinst : (Telemetry.loadSettle st ir).instanceId with _ | id
        · simp only [hinst]
          rw [init_telemetryActive]
          exact loadSettle_telemetryActive st ir
        · simp only [hinst]
          exact loadSettle_telemetryActive st ir
      · rw [if_neg hp]
        rcases hinst : st.instanceId with _ | id
        · simp only [hinst]
          rw [init_telemetryActive]
          exact h
        · simp only [hinst]
          exact h
  | opGet => simpa [facadeStep, hasActiveTelemetry] using h

/-- Witness for C6 (amended): raising-by-settle at a fresh state, and
monotonicity at a concrete state with the flag already raised. -/
theorem telemetryActive_flag_witness :
    hasActiveTelemetry (Telemetry.loadSettle {} (.ok ())) = true ∧
    hasActiveTelemetry { telemetryActive := true } = true ∧
    hasActiveTelemetry
      (facadeStep (.opInit none) { telemetryActive := true }) = true :=
  ⟨telemetryActive_flag_lifecycle.1 {} (.ok ()),
    rfl,
    telemetryActive_flag_lifecycle.2.2 (.opInit none)
      { telemetryActive := true } rfl⟩

-- ===========================================================================
-- C9 : facade singleton
-- ===========================================================================

/-- After any `Telemetry.init` call the instance exists and is the value
returned. -/
theorem init_sets_instance (st : FacadeState) (config : Option OtelConfig) :
    (Telemetry.init st config).2.instanceId =
      some (Telemetry.init st config).1 := by
  unfold Telemetry.init
  rcases h : st.instanceId with _ | id <;> simp [h] <;> split <;> rfl

/-- `Telemetry.init` on a state whose instance already exists returns that
instance and changes nothing. -/
theorem init_idempotent_step (st : FacadeState) (id : Nat)
    (h : st.instanceId = some id) (config : Option OtelConfig) :
    Telemetry.init st config = (id, st) := by
  unfold Telemetry.init
  simp [h]

/-- C9: `Telemetry.init` called any number of times returns the same
facade instance every time — after the first call, every further `init`
(with any configuration) returns the same identifier and leaves the whole
state unchanged, so in particular no second background load is started —
and `Telemetry.waitForInit`, after settling any pending background load,
resolves to that same instance. -/
theorem telemetry_init_singleton :
    (∀ (st : FacadeState) (c1 c2 : Option OtelConfig),
        Telemetry.init (Telemetry.init st c1).2 c2 =
          ((Telemetry.init st c1).1, (Telemetry.init st c1).2))
  ∧ (∀ (st : FacadeState) (c1 : Option OtelConfig)
        (importResult : Except String Unit),
        (Telemetry.waitForInit (Telemetry.init st c1).2 importResult).1 =
          (Telemetry.init st c1).1) := by
  constructor
  · intro st c1 c2
    exact init_idempotent_step (Telemetry.init st c1).2 (Telemetry.init st c1).1
      (init_sets_instance st c1) c2
  · intro st c1 ir
    unfold Telemetry.waitForInit
    by_cases hp : (Telemetry.init st c1).2.loadingPending
    · rw [if_pos hp]
      have hid : (Telemetry.loadSettle (Telemetry.init st c1).2 ir).instanceId =
          some (Telemetry.init st c1).1 := by
        rw [loadSettle_instanceId, init_sets_instance]
      simp [hid]
    · rw [if_neg hp]
      simp [init_sets_instance st c1]

-- ===========================================================================
-- C8 : traceClass
-- ===========================================================================

/-- Every function-valued property read through the proxy trap of
`traceClass` behaves exactly like the unwrapped function. -/
theorem proxyGet_value_preserving {α ε : Type} (inst : JSObj α ε)
    (opts : TraceClassOptions) (prop : String)
    (f : List α → CallResult α ε)
    (hf : inst.lookupProp prop = some (.func f)) :
    ∃ g, proxyGet inst opts prop = some (.func g) ∧
      ∀ args : List α, g args = f args := by
  unfold proxyGet
  rw [hf]
  by_cases hw : ((getAllMethodNames inst).contains prop &&
      !opts.excludeMethods.contains prop) = true
  · simp only [hw, if_true]
    exact ⟨_, rfl, fun args => wrapMethod_fst f prop _ args⟩
  · have hw2 : ((getAllMethodNames inst).contains prop &&
        !opts.excludeMethods.contains prop) = false := by
      simpa using hw
    simp only [hw2, Bool.false_eq_true, if_false]
    exact ⟨f, rfl, fun _ => rfl⟩

/-- C8: with no span active and the skip option at its default (true),
`traceClass` returns the identical instance; with `skipIfNoTelemetry`
disabled or a span active, it returns a distinct proxy whose `get` trap is
`proxyGet`, and every method looked up through the proxy, when called,
produces exactly the behaviour of the corresponding unwrapped method —
same return value, same thrown error, same thenable settlement. -/
theorem traceClass_skip_and_value_preservation
    {α ε : Type} (inst : JSObj α ε) (options : Option TraceClassOptions) :
    ((((options.getD {}).skipIfNoTelemetry).getD true = true →
        traceClass false inst options = .sameInstance))
  ∧ (∀ activeSpan : Bool,
      (((options.getD {}).skipIfNoTelemetry).getD true = false ∨
          activeSpan = true) →
      traceClass activeSpan inst options =
        .proxy (proxyGet inst (options.getD {})) ∧
      ∀ (prop : String) (f : List α → CallResult α ε),
        inst.lookupProp prop = some (.func f) →
        ∃ g, proxyGet inst (options.getD {}) prop = some (.func g) ∧
          ∀ args : List α, g args = f args) := by
  constructor
  · intro hskip
    simp [traceClass, hskip]
  · intro activeSpan hbypass
    have hcond : (((options.getD {}).skipIfNoTelemetry).getD true &&
        !activeSpan) = false := by
      rcases hbypass with h | h <;> simp [h]
    constructor
    · simp [traceClass, hcond]
    · intro prop f hf
      exact proxyGet_value_preserving inst (options.getD {}) prop f hf

/-- Witness for C8: a one-method instance.  With no active span and
default options the identical instance is returned; with an active span a
proxy is returned and its wrapped `getValue` method still produces
`ret 42`. -/
theorem traceClass_witness :
    (traceClass true
        (JSObj.mk [("getValue", JSProp.func fun _ => CallResult.ret 42)]
          (none : Option (JSObj Nat String))) none =
      .proxy (proxyGet
        (JSObj.mk [("getValue", JSProp.func fun _ => CallResult.ret 42)]
          (none : Option (JSObj Nat String))) {})) ∧
    (∃ g, proxyGet
        (JSObj.mk [("getValue", JSProp.func fun _ => CallResult.ret 42)]
          (none : Option (JSObj Nat String))) {} "getValue" =
          some (.func g) ∧
        ∀ args : List Nat, g args = CallResult.ret 42) ∧
    traceClass false
        (JSObj.mk [("getValue", JSProp.func fun _ => CallResult.ret 42)]
          (none : Option (JSObj Nat String))) none = .sameInstance := by
  have h := traceClass_skip_and_value_preservation
    (JSObj.mk [("getValue", JSProp.func fun _ => CallResult.ret 42)]
      (none : Option (JSObj Nat String))) none
  have h2 := (h.2 true (Or.inr rfl))
  refine ⟨h2.1, ?_, h.1 rfl⟩
  obtain ⟨g, hg, hval⟩ := h2.2 "getValue" (fun _ => CallResult.ret 42) rfl
  exact ⟨g, hg, fun args => hval args⟩

-- ===========================================================================
-- C7 : NoOpContext copy-on-write
-- ===========================================================================

/-- Overwriting an existing key: the overwritten key reads back the new
value. -/
theorem lookup_overwrite_self {V : Type} (m : SymMap V) (k : Nat) (v : V)
    (hs : (m.lookup k).isSome) :
    ((m.map fun p => if p.1 = k then (k, v) else p).lookup k) = some v := by
  induction m with
  | nil => simp at hs
  | cons p t ih =>
      obtain ⟨a, b⟩ := p
      by_cases hka : k = a
      · subst hka
        simp [List.lookup_cons]
      · have hb : (k == a) = false := by simp [hka]
        simp only [List.lookup_cons, hb] at hs
        have hne : ¬a = k := fun h => hka h.symm
        simp only [List.map_cons, if_neg hne, List.lookup_cons, hb]
        exact ih hs

/-- Overwriting a key leaves every other key unchanged. -/
theorem lookup_overwrite_ne {V : Type} (m : SymMap V) (k : Nat) (v : V)
    (j : Nat) (hj : j ≠ k) :
    ((m.map fun p => if p.1 = k then (k, v) else p).lookup j) = m.lookup j := by
  induction m with
  | nil => rfl
  | cons p t ih =>
      obtain ⟨a, b⟩ := p
      by_cases hak : a = k
      · subst hak
        have hb : (j == a) = false := by simp [hj]
        simp only [List.map_cons, eq_self_iff_true, if_true,
          List.lookup_cons, hb]
        exact ih
      · by_cases hja : j = a
        · subst hja
          simp only [List.map_cons, if_neg hak, List.lookup_cons,
            beq_self_eq_true]
        · have hb : (j == a) = false := by simp [hja]
          simp only [List.map_cons, if_neg hak, List.lookup_cons, hb]
          exact ih

/-- A key that is not among the map's keys looks up to nothing. -/
theorem lookup_eq_none_of_not_mem_keys {V : Type} (m : SymMap V) (k : Nat)
    (h : k ∉ m.map Prod.fst) : m.lookup k = none := by
  induction m with
  | nil => rfl
  | cons p t ih =>
      obtain ⟨a, b⟩ := p
      simp only [List.map_cons, List.mem_cons, not_or] at h
      have hb : (k == a) = false := by simp [h.1]
      simp only [List.lookup_cons, hb]
      exact ih h.2

/-- A key among the map's keys looks up to something. -/
theorem lookup_isSome_of_mem_keys {V : Type} (m : SymMap V) (k : Nat)
    (h : k ∈ m.map Prod.fst) : (m.lookup k).isSome := by
  induction m with
  | nil => simp at h
  | cons p t ih =>
      obtain ⟨a, b⟩ := p
      by_cases hka : k = a
      · subst hka
        simp [List.lookup_cons]
      · have hb : (k == a) = false := by simp [hka]
        simp only [List.map_cons, List.mem_cons] at h
        rcases h with h | h
        · exact absurd h hka
        · simp only [List.lookup_cons, hb]
          exact ih h

/-- `Map.set`: the written key reads back the written value. -/
theorem lookup_mapSet_self {V : Type} (m : SymMap V) (k : Nat) (v : V) :
    (mapSet m k v).lookup k = some v := by
  unfold mapSet
  by_cases hs : (m.lookup k).isSome
  · rw [if_pos hs]
    exact lookup_overwrite_self m k v hs
  · rw [if_neg hs]
    rw [lookup_append]
    have hnone : m.lookup k = none := Option.not_isSome_iff_eq_none.mp hs
    simp [hnone, List.lookup_cons]

/-- `Map.set`: every other key is unchanged. -/
theorem lookup_mapSet_ne {V : Type} (m : SymMap V) (k : Nat) (v : V)
    (j : Nat) (hj : j ≠ k) :
    (mapSet m k v).lookup j = m.lookup j := by
  unfold mapSet
  by_cases hs : (m.lookup k).isSome
  · rw [if_pos hs]
    exact lookup_overwrite_ne m k v j hj
  · rw [if_neg hs]
    rw [lookup_append]
    have hb : (j == k) = false := by simp [hj]
    simp [List.lookup_cons, hb]

/-- `Map.set` keeps map keys pairwise distinct. -/
theorem keys_mapSet_nodup {V : Type} (m : SymMap V) (k : Nat) (v : V)
    (h : (m.map Prod.fst).Nodup) :
    ((mapSet m k v).map Prod.fst).Nodup := by
  unfold mapSet
  by_cases hs : (m.lookup k).isSome
  · rw [if_pos hs]
    have hmap : ((m.map fun p => if p.1 = k then (k, v) else p).map Prod.fst)
        = m.map Prod.fst := by
      rw [List.map_map]
      refine List.map_congr_left fun p _ => ?_
      by_cases hp : p.1 = k <;> simp [hp]
    rw [hmap]
    exact h
  · rw [if_neg hs]
    rw [List.map_append]
    have hk : k ∉ m.map Prod.fst := fun hmem =>
      hs (lookup_isSome_of_mem_keys m k hmem)
    simp [List.nodup_append, h, List.disjoint_singleton, hk]

/-- Copying a map with pairwise-distinct keys into a destination map:
the copied entries win, everything else falls through to the
destination. -/
theorem lookup_copyAll {V : Type} (src : SymMap V) (j : Nat) :
    ∀ (dst : SymMap V), (src.map Prod.fst).Nodup →
      (copyAll src dst).lookup j = (src.lookup j).or (dst.lookup j) := by
  induction src with
  | nil => intro dst _; simp [copyAll]
  | cons p t ih =>
      intro dst hsrc
      obtain ⟨a, b⟩ := p
      simp only [List.map_cons, List.nodup_cons] at hsrc
      have hstep : copyAll ((a, b) :: t) dst = copyAll t (mapSet dst a b) := rfl
      rw [hstep, ih (mapSet dst a b) hsrc.2]
      by_cases hja : j = a
      · subst hja
        have ht : t.lookup j = none :=
          lookup_eq_none_of_not_mem_keys t j hsrc.1
        simp [ht, List.lookup_cons, lookup_mapSet_self]
      · have hb : (j == a) = false := by simp [hja]
        simp [List.lookup_cons, hb, lookup_mapSet_ne dst a b j hja]

/-- `copyAll` keeps map keys pairwise distinct. -/
theorem keys_copyAll_nodup {V : Type} (src : SymMap V) :
    ∀ (dst : SymMap V), (dst.map Prod.fst).Nodup →
      ((copyAll src dst).map Prod.fst).Nodup := by
  induction src with
  | nil => intro dst hd; exact hd
  | cons p t ih =>
      intro dst hd
      exact ih (mapSet dst p.1 p.2) (keys_mapSet_nodup dst p.1 p.2 hd)

/-- Copying a map with pairwise-distinct keys while skipping one key:
the skipped key falls through to the destination, every other key behaves
as under `copyAll`. -/
theorem lookup_copyAllExcept {V : Type} (src : SymMap V) (key j : Nat) :
    ∀ (dst : SymMap V), (src.map Prod.fst).Nodup →
      (copyAllExcept src key dst).lookup j =
        if j = key then dst.lookup j
        else (src.lookup j).or (dst.lookup j) := by
  induction src with
  | nil => intro dst _; by_cases hj : j = key <;> simp [copyAllExcept, hj]
  | cons p t ih =>
      intro dst hsrc
      obtain ⟨a, b⟩ := p
      simp only [List.map_cons, List.nodup_cons] at hsrc
      have hstep : copyAllExcept ((a, b) :: t) key dst =
          copyAllExcept t key (if a ≠ key then mapSet dst a b else dst) := rfl
      rw [hstep, ih _ hsrc.2]
      by_cases hak : a = key
      · subst hak
        simp only [ne_eq, not_true_eq_false, if_false]
        by_cases hj : j = a
        · subst hj
          simp
        · have hb : (j == a) = false := by simp [hj]
          simp [hj, List.lookup_cons, hb]
      · simp only [ne_eq, hak, not_false_eq_true, if_true]
        by_cases hj : j = key
        · subst hj
          have hja : j ≠ a := fun h => hak h.symm
          simp [lookup_mapSet_ne dst a b j hja]
        · by_cases hja : j = a
          · subst hja
            have ht : t.lookup j = none :=
              lookup_eq_none_of_not_mem_keys t j hsrc.1
            simp [hj, ht, List.lookup_cons, lookup_mapSet_self]
          · have hb : (j == a) = false := by simp [hja]
            simp [hj, List.lookup_cons, hb,
              lookup_mapSet_ne dst a b j hja]

/-- `copyAllExcept` keeps map keys pairwise distinct. -/
theorem keys_copyAllExcept_nodup {V : Type} (src : SymMap V) (key : Nat) :
    ∀ (dst : SymMap V), (dst.map Prod.fst).Nodup →
      ((copyAllExcept src key dst).map Prod.fst).Nodup := by
  induction src with
  | nil => intro dst hd; exact hd
  | cons p t ih =>
      intro dst hd
      show ((copyAllExcept t key
        (if p.1 ≠ key then mapSet dst p.1 p.2 else dst)).map Prod.fst).Nodup
      by_cases hp : p.1 ≠ key
      · rw [if_pos hp]
        exact ih (mapSet dst p.1 p.2) (keys_mapSet_nodup dst p.1 p.2 hd)
      · rw [if_neg hp]
        exact ih dst hd

/-- Every derivation only appends one fresh map to the heap. -/
theorem applyOp_heap_append {V : Type} (st : CtxHeap V) (c : Nat)
    (op : NoOpContext.CtxOp V) :
    ∃ m, (NoOpContext.applyOp st c op).2.heap = st.heap ++ [m] := by
  cases op with
  | set k v => exact ⟨_, rfl⟩
  | del k => exact ⟨_, rfl⟩

/-- Across any chain of derivations, every heap slot that existed before
is left untouched. -/
theorem applyOps_getD_preserved {V : Type} (ops : List (NoOpContext.CtxOp V)) :
    ∀ (st : CtxHeap V) (c i : Nat), i < st.heap.length →
      (NoOpContext.applyOps st c ops).2.heap.getD i [] =
        st.heap.getD i [] := by
  induction ops with
  | nil => intro st c i _; rfl
  | cons op ops ih =>
      intro st c i hi
      obtain ⟨m, hm⟩ := applyOp_heap_append st c op
      have hi2 : i < (NoOpContext.applyOp st c op).2.heap.length := by
        rw [hm, List.length_append]
        omega
      have hstep : NoOpContext.applyOps st c (op :: ops) =
          NoOpContext.applyOps (NoOpContext.applyOp st c op).2
            (NoOpContext.applyOp st c op).1 ops := rfl
      rw [hstep, ih _ _ i hi2, hm]
      exact List.getD_append _ _ _ _ hi

/-- The freshly appended map is what the new context reads. -/
theorem getD_concat_length {α : Type} (l : List α) (x d : α) :
    (l ++ [x]).getD l.length d = x := by
  simp [List.getD_eq_getElem?_getD, List.getElem?_concat_length]

/-- C7: for every well-formed heap and context `c` in it, (i) after any
chain of `setValue` / `deleteValue` derivations starting from `c`, the
observable mapping of `c` itself is unchanged at every key; (ii)
`setValue` returns a new context (distinct from `c`) whose mapping is a
faithful copy of the source with exactly the one key set — the value just
set is readable through `getValue`, every other key reads as in the
source; (iii) `deleteValue` returns a new context whose mapping is a
faithful copy with exactly the one key removed; and (iv) every derivation
preserves well-formedness of the heap. -/
theorem noOpContext_copy_on_write {V : Type} (st : CtxHeap V) (c : Nat)
    (hc : c < st.heap.length) (hwf : NoOpContext.WF st) :
    (∀ (ops : List (NoOpContext.CtxOp V)) (k : Nat),
        NoOpContext.getValue (NoOpContext.applyOps st c ops).2 c k =
          NoOpContext.getValue st c k)
  ∧ (∀ (k : Nat) (v : V),
        (NoOpContext.setValue st c k v).1 ≠ c
      ∧ NoOpContext.getValue (NoOpContext.setValue st c k v).2
          (NoOpContext.setValue st c k v).1 k = some v
      ∧ ∀ j, j ≠ k →
          NoOpContext.getValue (NoOpContext.setValue st c k v).2
            (NoOpContext.setValue st c k v).1 j =
            NoOpContext.getValue st c j)
  ∧ (∀ (k : Nat),
        (NoOpContext.deleteValue st c k).1 ≠ c
      ∧ NoOpContext.getValue (NoOpContext.deleteValue st c k).2
          (NoOpContext.deleteValue st c k).1 k = none
      ∧ ∀ j, j ≠ k →
          NoOpContext.getValue (NoOpContext.deleteValue st c k).2
            (NoOpContext.deleteValue st c k).1 j =
            NoOpContext.getValue st c j)
  ∧ (∀ (op : NoOpContext.CtxOp V),
        NoOpContext.WF (NoOpContext.applyOp st c op).2) := by
  have hsrc : ((st.heap.getD c []).map Prod.fst).Nodup := by
    have hmem : st.heap.getD c [] ∈ st.heap := by
      rw [List.getD_eq_getElem st.heap [] hc]
      exact List.getElem_mem hc
    exact hwf _ hmem
  refine ⟨?_, ?_, ?_, ?_⟩
  · intro ops k
    unfold NoOpContext.getValue
    rw [applyOps_getD_preserved ops st c c hc]
  · intro k v
    refine ⟨fun h => absurd (h ▸ hc) (lt_irrefl _), ?_, ?_⟩
    · show ((st.heap ++ [mapSet (copyAll (st.heap.getD c []) []) k v]).getD
          st.heap.length []).lookup k = some v
      rw [getD_concat_length]
      exact lookup_mapSet_self _ k v
    · intro j hj
      show ((st.heap ++ [mapSet (copyAll (st.heap.getD c []) []) k v]).getD
          st.heap.length []).lookup j = NoOpContext.getValue st c j
      rw [getD_concat_length, lookup_mapSet_ne _ k v j hj,
        lookup_copyAll (st.heap.getD c []) j [] hsrc]
      simp [NoOpContext.getValue]
  · intro k
    refine ⟨fun h => absurd (h ▸ hc) (lt_irrefl _), ?_, ?_⟩
    · show ((st.heap ++ [copyAllExcept (st.heap.getD c []) k []]).getD
          st.heap.length []).lookup k = none
      rw [getD_concat_length,
        lookup_copyAllExcept (st.heap.getD c []) k k [] hsrc]
      simp
    · intro j hj
      show ((st.heap ++ [copyAllExcept (st.heap.getD c []) k []]).getD
          st.heap.length []).lookup j = NoOpContext.getValue st c j
      rw [getD_concat_length,
        lookup_copyAllExcept (st.heap.getD c []) k j [] hsrc]
      simp [hj, NoOpContext.getValue]
  · intro op
    cases op with
    | set k v =>
        intro m hm
        rw [show (NoOpContext.applyOp st c (.set k v)).2.heap =
            st.heap ++ [mapSet (copyAll (st.heap.getD c []) []) k v]
            from rfl, List.mem_append] at hm
        rcases hm with hm | hm
        · exact hwf m hm
        · have hmeq : m = mapSet (copyAll (st.heap.getD c []) []) k v := by
            simpa using hm
          subst hmeq
          exact keys_mapSet_nodup _ k v
            (keys_copyAll_nodup (st.heap.getD c []) [] List.nodup_nil)
    | del k =>
        intro m hm
        rw [show (NoOpContext.applyOp st c (.del k)).2.heap =
            st.heap ++ [copyAllExcept (st.heap.getD c []) k []]
            from rfl, List.mem_append] at hm
        rcases hm with hm | hm
        · exact hwf m hm
        · have hmeq : m = copyAllExcept (st.heap.getD c []) k [] := by
            simpa using hm
          subst hmeq
          exact keys_copyAllExcept_nodup (st.heap.getD c []) k []
            List.nodup_nil

/-- Witness for C7 at a concrete heap with one context `\x7b 1 ↦ 5 \x7d`:
after a chained `setValue 2 7` and `deleteValue 1`, the original context
still reads `5` at key 1; and a fresh `setValue 2 9` yields a new context
reading `9` at key 2 and `5` at key 1. -/
theorem noOpContext_copy_on_write_witness :
    (0 < (CtxHeap.mk (V := Nat) [[(1, 5)]]).heap.length) ∧
    NoOpContext.WF (CtxHeap.mk (V := Nat) [[(1, 5)]]) ∧
    NoOpContext.getValue
      (NoOpContext.applyOps (CtxHeap.mk (V := Nat) [[(1, 5)]]) 0
        [.set 2 7, .del 1]).2 0 1 =
      NoOpContext.getValue (CtxHeap.mk (V := Nat) [[(1, 5)]]) 0 1 ∧
    NoOpContext.getValue (NoOpContext.setValue
        (CtxHeap.mk (V := Nat) [[(1, 5)]]) 0 2 9).2
      (NoOpContext.setValue (CtxHeap.mk (V := Nat) [[(1, 5)]]) 0 2 9).1 2 =
      some 9 ∧
    NoOpContext.getValue (NoOpContext.setValue
        (CtxHeap.mk (V := Nat) [[(1, 5)]]) 0 2 9).2
      (NoOpContext.setValue (CtxHeap.mk (V := Nat) [[(1, 5)]]) 0 2 9).1 1 =
      NoOpContext.getValue (CtxHeap.mk (V := Nat) [[(1, 5)]]) 0 1 := by
  have h := noOpContext_copy_on_write (CtxHeap.mk (V := Nat) [[(1, 5)]]) 0
    (by decide) (by unfold NoOpContext.WF; decide)
  exact ⟨by decide, by unfold NoOpContext.WF; decide, h.1 [.set 2 7, .del 1] 1,
    (h.2.1 2 9).2.1, (h.2.1 2 9).2.2 1 (by decide)⟩

-- ===========================================================================
-- C10 : module-level context.with / context.withAsync
-- ===========================================================================

/-- C10: `context.with(ctx, fn)` and `context.withAsync(ctx, fn)` run `fn`
with `ctx` as the active context and always restore the previously active
context afterward — whether `fn` returns or throws (rejects) — so
`context.active()` observed after the call equals the one observed before
it; instantiating `fn` with a probe that returns the active context shows
`ctx` is exactly what `fn` observes. -/
theorem contextWith_scoped_and_restores {C α ε : Type} (ctx : C)
    (fn : CtxFn C α ε) (activeContext : C) :
    contextWith ctx fn activeContext = ((fn ctx).1, activeContext) ∧
    contextWithAsync ctx fn activeContext = ((fn ctx).1, activeContext) ∧
    (contextWith (α := C) (ε := ε) ctx
        (fun current => (Except.ok current, current)) activeContext).1 =
      Except.ok ctx :=
  ⟨rfl, rfl, rfl⟩
